import Mathlib

/-
Verification of the EUIPO proxy core (main.py): the OAuth2 token cache,
the upstream search client, the result normalizer and the diacritic
fallback orchestrator.  Python values coming from JSON bodies are embedded
as `JVal`; Python exceptions are embedded as `Except`.
-/

set_option linter.unusedVariables false

/-- A Python value as it appears in decoded JSON bodies: None, bool, int,
str, list, dict (association list with distinct keys, first binding wins). -/
inductive JVal where
  | null
  | bool (b : Bool)
  | int (n : Int)
  | str (s : String)
  | arr (xs : List JVal)
  | obj (fields : List (String × JVal))

/-- A Python exception escaping uncaught (as opposed to an HTTPException). -/
inductive PyExc where
  | attributeError
  | typeError
  | valueError
deriving DecidableEq, Repr

/-- FastAPI's HTTPException: a status code and a detail string. -/
structure HTTPException where
  status_code : Nat
  detail : String
deriving DecidableEq, Repr

/-- Any failure a route can surface: an HTTPException raised on purpose,
or a Python exception escaping. -/
inductive Failure where
  | http (e : HTTPException)
  | exc (e : PyExc)
deriving DecidableEq, Repr

/-- First binding for a key in an association list (models dict lookup;
keys of a Python dict are distinct so first-wins is faithful). -/
def jlookup (key : String) : List (String × JVal) → Option JVal
  | [] => none
  | (k, v) :: rest => if k = key then some v else jlookup key rest

/-- Python truthiness of a value. -/
def truthy : JVal → Bool
  | .null => false
  | .bool b => b
  | .int n => n != 0
  | .str s => s != ""
  | .arr xs => !xs.isEmpty
  | .obj fs => !fs.isEmpty

/-- Python `x or y`. -/
def pyOr (v d : JVal) : JVal := if truthy v then v else d

/-- Python `t.get(key)` (default None): AttributeError when `t` is not a dict. -/
def pyGet (t : JVal) (key : String) : Except PyExc JVal :=
  match t with
  | .obj fields => .ok ((jlookup key fields).getD .null)
  | _ => .error .attributeError

/-- Python `t.get(key, d)`: AttributeError when `t` is not a dict. -/
def pyGetD (t : JVal) (key : String) (d : JVal) : Except PyExc JVal :=
  match t with
  | .obj fields => .ok ((jlookup key fields).getD d)
  | _ => .error .attributeError

/-- Python whitespace stripped by `str.strip()` (ASCII whitespace). -/
def isPySpace (c : Char) : Bool :=
  c == ' ' || c == '\t' || c == '\n' || c == '\r' || c == '\x0b' || c == '\x0c'

/-- Python `s.strip()`. -/
def pyStrip (s : String) : String :=
  String.mk (((s.data.dropWhile isPySpace).reverse.dropWhile isPySpace).reverse)

/-- Python iteration over a value: lists yield elements, strings yield
one-character strings, dicts yield keys; other values raise TypeError. -/
def pyIterate : JVal → Except PyExc (List JVal)
  | .arr xs => .ok xs
  | .str s => .ok (s.data.map fun c => .str (String.mk [c]))
  | .obj fs => .ok (fs.map fun kv => .str kv.1)
  | _ => .error .typeError

/-- Whether a value may be put in a Python set (lists and dicts are unhashable). -/
def hashable : JVal → Bool
  | .arr _ => false
  | .obj _ => false
  | _ => true

/-- Python `set(xs)` from an already-produced list of elements: TypeError on
an unhashable element.  Duplicates are kept: only membership questions are
asked of the result, which duplicates do not affect. -/
def pySet (xs : List JVal) : Except PyExc (List JVal) :=
  if xs.all hashable then .ok xs else .error .typeError

/-- Python `==` on the scalar values that can inhabit a set here
(True == 1 as in Python; no cross-type equality otherwise). -/
def pyEq : JVal → JVal → Bool
  | .int a, .int b => a == b
  | .int a, .bool b => a == (if b then (1 : Int) else 0)
  | .bool a, .int b => (if a then (1 : Int) else 0) == b
  | .bool a, .bool b => a == b
  | .str a, .str b => a == b
  | .null, .null => true
  | _, _ => false

/-- Python `int(v)`: ints pass through, bools widen, strings parse
(ValueError on failure), anything else raises TypeError. -/
def pyInt : JVal → Except PyExc Int
  | .int n => .ok n
  | .bool b => .ok (if b then 1 else 0)
  | .str s =>
      match (pyStrip s).toInt? with
      | some n => .ok n
      | none => .error .valueError
  | _ => .error .typeError

/-- Rendering of a value inside an f-string, as in
`f"EUIPO token missing in response: \x7bj\x7d"`; abstracts Python repr
(no claim inspects this string beyond its presence). -/
def pyRepr : JVal → String
  | .null => "None"
  | .bool b => if b then "True" else "False"
  | .int n => toString n
  | .str s => "\x27" ++ s ++ "\x27"
  | .arr _ => "[...]"
  | .obj _ => "\x7b...\x7d"

/-- The process-wide token cache `_token_cache = \x7b"token": None, "exp": 0\x7d`:
the cached value and its absolute expiry in integer seconds. -/
structure TokenCache where
  token : JVal
  exp : Int

/-- The cache at process start. -/
def initial_cache : TokenCache := ⟨.null, 0⟩

/-- An HTTP response from an upstream endpoint: status code, raw text body,
and the body decoded as a value (`r.json()`). -/
structure HttpResp where
  status : Nat
  text : String
  json : JVal

/-- One authenticated GET issued to the upstream search endpoint: the bearer
token and the `text`, `page`, `size` query parameters. -/
structure SearchCall where
  token : JVal
  text : String
  page : Int
  size : Int

/-- The environment a request runs in: the two configured secrets and the
responses the two upstream endpoints would give. -/
structure Env where
  clientId : String
  clientSecret : String
  authResponse : HttpResp
  searchResponse : SearchCall → HttpResp

/-- Model of `_require_env()`: HTTPException 500 when either secret is empty. -/
def require_env (env : Env) : Except Failure Unit :=
  if env.clientId = "" ∨ env.clientSecret = "" then
    .error (.http ⟨500, "Missing EUIPO_CLIENT_ID / EUIPO_CLIENT_SECRET env vars"⟩)
  else .ok ()

/-- Model of `_get_access_token()`: checks the secrets, serves the cached value when
it is truthy and `now < exp - 30`, otherwise performs one token exchange.
`now` and `now2` embed the two `int(time.time())` reads (line 81 and
line 109).  Returns the token (or failure), the cache afterwards, and how
many upstream authentication calls were made. -/
def get_access_token (env : Env) (now now2 : Int) (c : TokenCache) :
    Except Failure JVal × TokenCache × Nat :=
  match require_env env with
  | .error e => (.error e, c, 0)
  | .ok () =>
    if truthy c.token ∧ now < c.exp - 30 then
      (.ok c.token, c, 0)
    else
      let r := env.authResponse
      if r.status ≠ 200 then
        (.error (.http ⟨502, "EUIPO token error: " ++ r.text⟩), c, 1)
      else
        match pyGet r.json "access_token" with
        | .error e => (.error (.exc e), c, 1)
        | .ok token =>
          if ¬ truthy token then
            (.error (.http ⟨502, "EUIPO token missing in response: " ++ pyRepr r.json⟩), c, 1)
          else
            match pyGetD r.json "expires_in" (.int 3600) with
            | .error e => (.error (.exc e), c, 1)
            | .ok ei =>
              match pyInt ei with
              | .error e => (.error (.exc e), c, 1)
              | .ok expires_in => (.ok token, ⟨token, now2 + expires_in⟩, 1)

/-- Model of `_euipo_get_trademarks(token, text, page, size)`: one authenticated GET;
non-200 statuses become HTTPException with the upstream status and the detail
`"EUIPO search error: "` followed by the raw body.  Also returns the list of
upstream search calls made (always exactly the one). -/
def euipo_get_trademarks (env : Env) (token : JVal) (text : String)
    (page size : Int) : Except Failure JVal × List SearchCall :=
  let call : SearchCall := ⟨token, text, page, size⟩
  let r := env.searchResponse call
  if r.status ≠ 200 then
    (.error (.http ⟨r.status, "EUIPO search error: " ++ r.text⟩), [call])
  else
    (.ok r.json, [call])

/-- The shape `_clean` produces for one kept record. -/
structure NormRecord where
  applicationNumber : JVal
  verbalElement : Option String
  status : JVal
  niceClasses : JVal
  markFeature : JVal
  applicationDate : JVal
  registrationDate : JVal

/-- The ordered soft-fallback keys of `_extract_label`. -/
def fallback_keys : List String :=
  ["markText", "verbalElement", "reference", "title", "name"]

/-- The `for key in [...]` loop of `_extract_label`: first value that is a
str with non-blank strip, stripped; None when the keys are exhausted. -/
def first_fallback (t : JVal) : List String → Except PyExc (Option String)
  | [] => .ok none
  | key :: rest => do
    let v ← pyGet t key
    match v with
    | .str s => if pyStrip s ≠ "" then .ok (some (pyStrip s)) else first_fallback t rest
    | _ => first_fallback t rest

/-- Model of `_extract_label(t)`: the nested word-mark verbal element when it is a
non-blank str (stripped), else the first non-blank str among the fallback
keys, else None.  `w.get` raises AttributeError when `wordMarkSpecification`
is truthy but not a dict. -/
def extract_label (t : JVal) : Except PyExc (Option String) := do
  let wms ← pyGet t "wordMarkSpecification"
  let w := pyOr wms (.obj [])
  let verbal ← pyGet w "verbalElement"
  match verbal with
  | .str s => if pyStrip s ≠ "" then .ok (some (pyStrip s)) else first_fallback t fallback_keys
  | _ => first_fallback t fallback_keys

/-- The skip test of `_clean`: with a present non-empty filter the record is
kept iff `set(classes)` intersects `set(filter)` non-emptily. -/
def keep_record (filter : Option (List Int)) (classes : JVal) : Except PyExc Bool :=
  match filter with
  | none => .ok true
  | some fl =>
    if fl.isEmpty then .ok true
    else do
      let cs ← pyIterate classes
      let csSet ← pySet cs
      .ok (csSet.any fun c => fl.any fun n => pyEq c (.int n))

/-- One iteration of the loop of `_clean`: `none` when the record is skipped
by the category filter, otherwise the projected record. -/
def clean_one (filter : Option (List Int)) (t : JVal) :
    Except PyExc (Option NormRecord) := do
  let classesRaw ← pyGet t "niceClasses"
  let classes := pyOr classesRaw (.arr [])
  let keep ← keep_record filter classes
  if keep then do
    let appNo ← pyGet t "applicationNumber"
    let label ← extract_label t
    let status ← pyGet t "status"
    let mf ← pyGet t "markFeature"
    let ad ← pyGet t "applicationDate"
    let rd ← pyGet t "registrationDate"
    .ok (some ⟨appNo, label, status, classes, mf, ad, rd⟩)
  else .ok none

/-- Model of the loop of `_clean(trademarks)`: the kept records in input order. -/
def clean (filter : Option (List Int)) : List JVal → Except PyExc (List NormRecord)
  | [] => .ok []
  | t :: rest => do
    let r ← clean_one filter t
    let rs ← clean filter rest
    match r with
    | some x => .ok (x :: rs)
    | none => .ok rs

/-- Model of `_clean(data.get("trademarks", []))`: unwraps the trademarks list from a
decoded response body and normalizes it. -/
def run_clean (filter : Option (List Int)) (data : JVal) :
    Except Failure (List NormRecord) :=
  match pyGetD data "trademarks" (.arr []) with
  | .error e => .error (.exc e)
  | .ok tmsJ =>
    match pyIterate tmsJ with
    | .error e => .error (.exc e)
    | .ok tms =>
      match clean filter tms with
      | .error e => .error (.exc e)
      | .ok rs => .ok rs

/-- The body of `POST /euipo/search` (pydantic-validated). -/
structure EuipoSearchRequest where
  text : String
  niceClasses : Option (List Int)
  page : Int
  size : Int

/-- The dict returned by `euipo_search`. -/
structure SearchOutput where
  query : String
  page : Int
  size : Int
  results : List NormRecord

/-- Compatibility (NFKD) decomposition of one character, per the Unicode
character database, restricted to the characters this development touches;
a character outside the table decomposes to itself.  U+FB01 (the fi
ligature) has a compatibility decomposition but no canonical one. -/
def nfkd_char : Char → List Char
  | 'à' => ['a', '̀']
  | 'è' => ['e', '̀']
  | 'é' => ['e', '́']
  | 'ì' => ['i', '̀']
  | 'ò' => ['o', '̀']
  | 'ù' => ['u', '̀']
  | 'ü' => ['u', '̈']
  | 'ñ' => ['n', '̃']
  | 'ç' => ['c', '̧']
  | 'ﬁ' => ['f', 'i']
  | c => [c]

/-- Canonical (NFD) decomposition of one character, same table: identical to
`nfkd_char` except that compatibility-only decompositions (the fi ligature)
do not apply. -/
def nfd_char : Char → List Char
  | 'à' => ['a', '̀']
  | 'è' => ['e', '̀']
  | 'é' => ['e', '́']
  | 'ì' => ['i', '̀']
  | 'ò' => ['o', '̀']
  | 'ù' => ['u', '̀']
  | 'ü' => ['u', '̈']
  | 'ñ' => ['n', '̃']
  | 'ç' => ['c', '̧']
  | c => [c]

/-- Model of `unicodedata.normalize("NFKD", s)` over the modelled characters. -/
def nfkd (s : String) : String := String.mk ((s.data.map nfkd_char).flatten)

/-- Model of `unicodedata.normalize("NFD", s)` over the modelled characters. -/
def nfd (s : String) : String := String.mk ((s.data.map nfd_char).flatten)

/-- Model of `unicodedata.combining(c) != 0` over the modelled characters: the
combining diacritical marks block U+0300..U+036F (every mark the table
produces lies in it; base characters have combining class 0). -/
def combining (c : Char) : Bool := 0x300 ≤ c.toNat && c.toNat ≤ 0x36F

/-- Model of `_strip_diacritics(s)`: NFKD decomposition, then drop combining marks. -/
def strip_diacritics (s : String) : String :=
  String.mk ((nfkd s).data.filter fun ch => !combining ch)

/-- Modelled from the spec: "canonical decomposition of the text followed by
removal of all combining marks" — the transform the spec says
`_strip_diacritics` is, stated with canonical (NFD) decomposition. -/
def spec_canonical_strip (s : String) : String :=
  String.mk ((nfd s).data.filter fun ch => !combining ch)

/-- Compatibility decomposition followed by removal of all combining marks:
the amended description of `_strip_diacritics`. -/
def spec_compat_strip (s : String) : String :=
  String.mk ((nfkd s).data.filter fun ch => !combining ch)

/-- Model of `POST /euipo/search`: acquire a token once, Primary fetch with the query
text, normalize; when the normalized result is empty and stripping
diacritics changes the text, one Retry fetch with the stripped text and the
same page/size, whose normalization is returned even when empty.  Returns
the response (or failure), the cache afterwards, the number of upstream
authentication calls, and the ordered upstream search calls. -/
def euipo_search (env : Env) (now now2 : Int) (c : TokenCache)
    (p : EuipoSearchRequest) :
    Except Failure SearchOutput × TokenCache × Nat × List SearchCall :=
  match get_access_token env now now2 c with
  | (.error e, c2, n) => (.error e, c2, n, [])
  | (.ok token, c2, n) =>
    match euipo_get_trademarks env token p.text p.page p.size with
    | (.error e, calls) => (.error e, c2, n, calls)
    | (.ok data, calls) =>
      match run_clean p.niceClasses data with
      | .error e => (.error e, c2, n, calls)
      | .ok cleaned =>
        if cleaned.isEmpty then
          let stripped := strip_diacritics p.text
          if stripped ≠ p.text then
            match euipo_get_trademarks env token stripped p.page p.size with
            | (.error e, calls2) => (.error e, c2, n, calls ++ calls2)
            | (.ok data2, calls2) =>
              match run_clean p.niceClasses data2 with
              | .error e => (.error e, c2, n, calls ++ calls2)
              | .ok cleaned2 =>
                (.ok ⟨p.text, p.page, p.size, cleaned2⟩, c2, n, calls ++ calls2)
          else
            (.ok ⟨p.text, p.page, p.size, cleaned⟩, c2, n, calls)
        else
          (.ok ⟨p.text, p.page, p.size, cleaned⟩, c2, n, calls)

/-- An environment with an empty client identifier, for the C8 witness. -/
def env_no_id : Env :=
  ⟨"", "sec", ⟨200, "", .null⟩, fun _ => ⟨200, "", .null⟩⟩

/-- An environment whose auth endpoint answers 418 "auth denied" and whose
search endpoint answers 429 with body `\x7b"error":"rate limited"\x7d`. -/
def env_upstream_err : Env :=
  ⟨"id", "sec", ⟨418, "auth denied", .null⟩,
   fun _ => ⟨429, "\x7b\"error\":\"rate limited\"\x7d", .null⟩⟩

/-- A raw record with categories 25 and 9 and no label fields. -/
def rec_cat : JVal := .obj [("niceClasses", .arr [.int 25, .int 9])]

/-- The first value in a list that is a non-blank string, stripped: the
fallback chain of the spec, read off a list of candidate values. -/
def first_nonblank : List JVal → Option String
  | [] => none
  | .str s :: rest =>
      if pyStrip s ≠ "" then some (pyStrip s) else first_nonblank rest
  | _ :: rest => first_nonblank rest

/-- The nested word-mark verbal element of a record: the `verbalElement`
entry of the `wordMarkSpecification` mapping, None when the mapping or the
entry is absent. -/
def nested_verbal (fields : List (String × JVal)) : JVal :=
  match jlookup "wordMarkSpecification" fields with
  | some (.obj wf) => (jlookup "verbalElement" wf).getD .null
  | _ => .null

/-- The ordered candidate values the spec's fallback chain inspects: the
nested verbal element, then the five alternate text fields in order. -/
def label_chain (fields : List (String × JVal)) : List JVal :=
  nested_verbal fields :: (fallback_keys.map fun k => (jlookup k fields).getD .null)

/-- A raw record normalization cannot crash on: a mapping whose
`wordMarkSpecification` is absent, falsy or itself a mapping, and whose
`niceClasses` is absent, falsy or a list of hashable (scalar) values. -/
def tame_record (t : JVal) : Prop :=
  ∃ fields, t = .obj fields
    ∧ (truthy ((jlookup "wordMarkSpecification" fields).getD .null) = false
       ∨ ∃ wf, jlookup "wordMarkSpecification" fields = some (.obj wf))
    ∧ (truthy ((jlookup "niceClasses" fields).getD .null) = false
       ∨ ∃ xs, jlookup "niceClasses" fields = some (.arr xs)
           ∧ ∀ x ∈ xs, hashable x = true)

/-- An environment with valid secrets, a healthy auth endpoint issuing token
"T" for 3600 seconds, and a search endpoint returning an empty trademark
list. -/
def env_happy : Env :=
  ⟨"id", "sec",
   ⟨200, "", .obj [("access_token", .str "T"), ("expires_in", .int 3600)]⟩,
   fun _ => ⟨200, "", .obj [("trademarks", .arr [])]⟩⟩

@[simp]
theorem except_bind_ok {α β ε : Type} (a : α) (f : α → Except ε β) :
    (Except.ok a >>= f) = f a := rfl

@[simp]
theorem except_bind_err {α β ε : Type} (e : ε) (f : α → Except ε β) :
    ((Except.error e : Except ε α) >>= f) = .error e := rfl

theorem euipo_get_trademarks_ok (env : Env) (token : JVal) (text : String)
    (page size : Int)
    (h : (env.searchResponse ⟨token, text, page, size⟩).status = 200) :
    euipo_get_trademarks env token text page size =
      (.ok (env.searchResponse ⟨token, text, page, size⟩).json,
       [⟨token, text, page, size⟩]) := by
  simp [euipo_get_trademarks, h]

theorem euipo_get_trademarks_err (env : Env) (token : JVal) (text : String)
    (page size : Int)
    (h : (env.searchResponse ⟨token, text, page, size⟩).status ≠ 200) :
    euipo_get_trademarks env token text page size =
      (.error (.http ⟨(env.searchResponse ⟨token, text, page, size⟩).status,
         "EUIPO search error: " ++ (env.searchResponse ⟨token, text, page, size⟩).text⟩),
       [⟨token, text, page, size⟩]) := by
  simp [euipo_get_trademarks, h]

/-- C8: if either secret configuration value is empty, `_get_access_token`
fails immediately with the config error (HTTPException 500, the
AuthConfigError of the spec) making zero upstream authentication calls and
leaving the cache untouched, and `euipo_search` surfaces the same failure
having made zero upstream search calls. -/
theorem C8_config_gate (env : Env) (now now2 : Int) (c : TokenCache)
    (p : EuipoSearchRequest)
    (h : env.clientId = "" ∨ env.clientSecret = "") :
    get_access_token env now now2 c =
      (.error (.http ⟨500, "Missing EUIPO_CLIENT_ID / EUIPO_CLIENT_SECRET env vars"⟩), c, 0)
    ∧ euipo_search env now now2 c p =
      (.error (.http ⟨500, "Missing EUIPO_CLIENT_ID / EUIPO_CLIENT_SECRET env vars"⟩), c, 0, []) := by
  have hre : require_env env =
      .error (.http ⟨500, "Missing EUIPO_CLIENT_ID / EUIPO_CLIENT_SECRET env vars"⟩) := by
    simp [require_env, h]
  have hg : get_access_token env now now2 c =
      (.error (.http ⟨500, "Missing EUIPO_CLIENT_ID / EUIPO_CLIENT_SECRET env vars"⟩), c, 0) := by
    simp [get_access_token, hre]
  exact ⟨hg, by simp [euipo_search, hg]⟩

theorem C8_config_gate_witness :
    (env_no_id.clientId = "" ∨ env_no_id.clientSecret = "")
    ∧ (get_access_token env_no_id 0 0 initial_cache =
        (.error (.http ⟨500, "Missing EUIPO_CLIENT_ID / EUIPO_CLIENT_SECRET env vars"⟩),
         initial_cache, 0)
      ∧ euipo_search env_no_id 0 0 initial_cache ⟨"Acme", none, 0, 10⟩ =
        (.error (.http ⟨500, "Missing EUIPO_CLIENT_ID / EUIPO_CLIENT_SECRET env vars"⟩),
         initial_cache, 0, [])) :=
  ⟨Or.inl rfl, C8_config_gate env_no_id 0 0 initial_cache ⟨"Acme", none, 0, 10⟩ (Or.inl rfl)⟩

/-- C3, counterexample: a search call answered 429 with body
`\x7b"error":"rate limited"\x7d` raises an HTTPException whose detail is the
body prefixed with "EUIPO search error: " — not the body verbatim — and an
authentication failure with upstream status 418 raises an HTTPException
with status 502, not the upstream's own status. -/
theorem C3_counterexample :
    (euipo_get_trademarks env_upstream_err (.str "T") "x" 0 10).1 =
      .error (.http ⟨429, "EUIPO search error: \x7b\"error\":\"rate limited\"\x7d"⟩)
    ∧ "EUIPO search error: \x7b\"error\":\"rate limited\"\x7d" ≠
        "\x7b\"error\":\"rate limited\"\x7d"
    ∧ (get_access_token env_upstream_err 0 0 initial_cache).1 =
        .error (.http ⟨502, "EUIPO token error: auth denied"⟩)
    ∧ (502 : Nat) ≠ 418 :=
  ⟨rfl, by decide, rfl, by decide⟩

/-- C3, amended: on a non-success upstream status a search call fails with
an HTTPException carrying the upstream's status and a detail that is the
fixed prefix "EUIPO search error: " followed by the upstream body verbatim;
a failed token exchange fails with the fixed status 502 and a detail that is
"EUIPO token error: " followed by the upstream body verbatim. -/
theorem C3_amended (env : Env) (token : JVal) (text : String)
    (page size now now2 : Int) (c : TokenCache) :
    ((env.searchResponse ⟨token, text, page, size⟩).status ≠ 200 →
      (euipo_get_trademarks env token text page size).1 =
        .error (.http ⟨(env.searchResponse ⟨token, text, page, size⟩).status,
          "EUIPO search error: " ++ (env.searchResponse ⟨token, text, page, size⟩).text⟩))
    ∧ (env.clientId ≠ "" → env.clientSecret ≠ "" →
       ¬ (truthy c.token = true ∧ now < c.exp - 30) →
       env.authResponse.status ≠ 200 →
       get_access_token env now now2 c =
         (.error (.http ⟨502, "EUIPO token error: " ++ env.authResponse.text⟩), c, 1)) := by
  constructor
  · intro h
    rw [euipo_get_trademarks_err env token text page size h]
  · intro hid hsec hmiss h200
    have hre : require_env env = .ok () := by simp [require_env, hid, hsec]
    simp [get_access_token, hre, hmiss, h200]

theorem C3_amended_witness :
    ((env_upstream_err.searchResponse ⟨.str "T", "x", 0, 10⟩).status ≠ 200
      ∧ ¬ (truthy initial_cache.token = true ∧ (0 : Int) < initial_cache.exp - 30)
      ∧ env_upstream_err.authResponse.status ≠ 200)
    ∧ (euipo_get_trademarks env_upstream_err (.str "T") "x" 0 10).1 =
        .error (.http ⟨(env_upstream_err.searchResponse ⟨.str "T", "x", 0, 10⟩).status,
          "EUIPO search error: " ++ (env_upstream_err.searchResponse ⟨.str "T", "x", 0, 10⟩).text⟩)
    ∧ get_access_token env_upstream_err 0 0 initial_cache =
        (.error (.http ⟨502, "EUIPO token error: " ++ env_upstream_err.authResponse.text⟩),
         initial_cache, 1) :=
  ⟨⟨by decide, by simp [initial_cache, truthy], by decide⟩,
   (C3_amended env_upstream_err (.str "T") "x" 0 10 0 0 initial_cache).1 (by decide),
   (C3_amended env_upstream_err (.str "T") "x" 0 10 0 0 initial_cache).2
     (by decide) (by decide) (by simp [initial_cache, truthy]) (by decide)⟩

/-- C7, counterexample: on the fi ligature U+FB01 — which has a
compatibility decomposition to "fi" but no canonical decomposition —
`_strip_diacritics` returns "fi", while canonical decomposition followed by
removal of combining marks leaves the ligature unchanged; so the transform
is not canonical decomposition plus mark removal. -/
theorem C7_counterexample :
    strip_diacritics "ﬁ" ≠ spec_canonical_strip "ﬁ"
    ∧ strip_diacritics "ﬁ" = "fi"
    ∧ spec_canonical_strip "ﬁ" = "ﬁ" :=
  ⟨by decide, rfl, rfl⟩

/-- C7, amended: diacritic stripping is exactly compatibility (NFKD)
decomposition of the input followed by removal of all combining marks, so
"Nuvilù" maps to "Nuvilu"; it is a pure transform, and the characters of
the decomposed text that are not combining marks are preserved unchanged
and in order (the output is a sublist of the decomposition). -/
theorem C7_amended (s : String) :
    strip_diacritics s = spec_compat_strip s
    ∧ (strip_diacritics s).data =
        ((nfkd s).data.filter fun ch => !combining ch)
    ∧ (strip_diacritics s).data.Sublist (nfkd s).data
    ∧ strip_diacritics "Nuvilù" = "Nuvilu" := by
  refine ⟨rfl, rfl, ?_, rfl⟩
  simp only [strip_diacritics]
  exact List.filter_sublist (nfkd s).data

@[simp]
theorem pyEq_int (a b : Int) : pyEq (.int a) (.int b) = (a == b) := rfl

theorem list_any_map {α β : Type} (f : α → β) (l : List α) (p : β → Bool) :
    (l.map f).any p = l.any fun a => p (f a) := by
  induction l with
  | nil => rfl
  | cons x xs ih => simp [List.any_cons, ih]

theorem list_all_map {α β : Type} (f : α → β) (l : List α) (p : β → Bool) :
    (l.map f).all p = l.all fun a => p (f a) := by
  induction l with
  | nil => rfl
  | cons x xs ih => simp [List.all_cons, ih]

theorem keep_record_ints (F : Option (List Int)) (cs : List Int) :
    keep_record F (.arr (cs.map JVal.int)) =
      .ok ((F.getD []).isEmpty ||
        (cs.any fun c => (F.getD []).any fun n => c == n)) := by
  match F with
  | none => simp [keep_record]
  | some [] => simp [keep_record]
  | some (n0 :: rest) =>
    simp [keep_record, pyIterate, pySet, list_all_map, hashable, list_any_map]

/-- C4: a raw record whose categories are the integers `cs` is retained by
the normalizer exactly when the filter is absent or empty, or some category
of the record belongs to the filter set. -/
theorem C4_category_filter (fields : List (String × JVal)) (cs : List Int)
    (F : Option (List Int)) (lbl : Option String)
    (hcls : jlookup "niceClasses" fields = some (.arr (cs.map JVal.int)))
    (hlbl : extract_label (.obj fields) = .ok lbl) :
    (∃ r, clean_one F (.obj fields) = .ok (some r)) ↔
      (F.getD [] = [] ∨ ∃ c ∈ cs, c ∈ F.getD []) := by
  have hor : pyOr (.arr (cs.map JVal.int)) (.arr []) = .arr (cs.map JVal.int) := by
    cases cs <;> simp [pyOr, truthy]
  cases hbval : ((F.getD []).isEmpty ||
      (cs.any fun c => (F.getD []).any fun n => c == n)) with
  | true =>
    have hco : clean_one F (.obj fields) = .ok (some
        ⟨(jlookup "applicationNumber" fields).getD .null, lbl,
         (jlookup "status" fields).getD .null, .arr (cs.map JVal.int),
         (jlookup "markFeature" fields).getD .null,
         (jlookup "applicationDate" fields).getD .null,
         (jlookup "registrationDate" fields).getD .null⟩) := by
      simp [clean_one, pyGet, hcls, hor, keep_record_ints, hbval, hlbl]
    have hR : F.getD [] = [] ∨ ∃ c ∈ cs, c ∈ F.getD [] := by
      rcases (show (F.getD []).isEmpty = true ∨
          (cs.any fun c => (F.getD []).any fun n => c == n) = true by
        simpa using hbval) with h | h
      · exact Or.inl (by simpa using h)
      · right; simpa using h
    exact ⟨fun _ => hR, fun _ => ⟨_, hco⟩⟩
  | false =>
    have hco : clean_one F (.obj fields) = .ok none := by
      simp [clean_one, pyGet, hcls, hor, keep_record_ints, hbval]
    constructor
    · rintro ⟨r, hr⟩
      rw [hco] at hr
      simp at hr
    · intro hR
      have hcontra : ((F.getD []).isEmpty ||
          (cs.any fun c => (F.getD []).any fun n => c == n)) = true := by
        rcases hR with h | ⟨c, hc, hcf⟩
        · simp [h]
        · simp only [Bool.or_eq_true, List.any_eq_true, beq_iff_eq]
          exact Or.inr ⟨c, hc, c, hcf, rfl⟩
      rw [hcontra] at hbval
      cases hbval

theorem C4_category_filter_witness :
    ((∃ r, clean_one (some [9, 35]) rec_cat = .ok (some r)) ↔
      ((some [9, 35] : Option (List Int)).getD [] = [] ∨
        ∃ c ∈ [(25 : Int), 9], c ∈ (some [9, 35] : Option (List Int)).getD []))
    ∧ ((∃ r, clean_one (some [3]) rec_cat = .ok (some r)) ↔
      ((some [3] : Option (List Int)).getD [] = [] ∨
        ∃ c ∈ [(25 : Int), 9], c ∈ (some [3] : Option (List Int)).getD [])) :=
  ⟨C4_category_filter [("niceClasses", .arr [.int 25, .int 9])] [25, 9]
      (some [9, 35]) none rfl rfl,
   C4_category_filter [("niceClasses", .arr [.int 25, .int 9])] [25, 9]
      (some [3]) none rfl rfl⟩

@[simp]
theorem pyGet_obj (fields : List (String × JVal)) (key : String) :
    pyGet (.obj fields) key = .ok ((jlookup key fields).getD .null) := rfl

theorem first_fallback_eq (fields : List (String × JVal)) (keys : List String) :
    first_fallback (.obj fields) keys =
      .ok (first_nonblank (keys.map fun k => (jlookup k fields).getD .null)) := by
  induction keys with
  | nil => rfl
  | cons k rest ih =>
    simp only [first_fallback, pyGet, except_bind_ok, List.map_cons]
    cases hv : (jlookup k fields).getD .null with
    | str s =>
      by_cases hs : pyStrip s = ""
      · simp [first_nonblank, hs, ih]
      · simp [first_nonblank, hs]
    | null => simp [first_nonblank, ih]
    | bool b => simp [first_nonblank, ih]
    | int n => simp [first_nonblank, ih]
    | arr xs => simp [first_nonblank, ih]
    | obj fs => simp [first_nonblank, ih]

theorem extract_label_eq (fields : List (String × JVal))
    (hw : truthy ((jlookup "wordMarkSpecification" fields).getD .null) = false
          ∨ ∃ wf, jlookup "wordMarkSpecification" fields = some (.obj wf)) :
    extract_label (.obj fields) = .ok (first_nonblank (label_chain fields)) := by
  have hff := first_fallback_eq fields fallback_keys
  rcases hw with hfal | ⟨wf, hwf⟩
  · have hnv : nested_verbal fields = .null := by
      cases hl : jlookup "wordMarkSpecification" fields with
      | none => simp [nested_verbal, hl]
      | some v =>
        cases v with
        | obj wf =>
          rw [hl] at hfal
          simp only [Option.getD_some, truthy, Bool.not_eq_true'] at hfal
          have : wf = [] := by
            cases wf with
            | nil => rfl
            | cons p r => simp at hfal
          subst this
          simp [nested_verbal, hl, jlookup]
        | null => simp [nested_verbal, hl]
        | bool b => simp [nested_verbal, hl]
        | int n => simp [nested_verbal, hl]
        | str s => simp [nested_verbal, hl]
        | arr xs => simp [nested_verbal, hl]
    have hor : pyOr ((jlookup "wordMarkSpecification" fields).getD .null) (.obj [])
        = .obj [] := by
      simp [pyOr, hfal]
    simp [extract_label, pyGet, hor, label_chain, hnv, first_nonblank, hff, jlookup]
  · have hnv : nested_verbal fields = (jlookup "verbalElement" wf).getD .null := by
      simp [nested_verbal, hwf]
    obtain ⟨wf2, h1, h2⟩ : ∃ wf2, pyOr (.obj wf) (.obj []) = .obj wf2
        ∧ jlookup "verbalElement" wf2 = jlookup "verbalElement" wf := by
      cases wf with
      | nil => exact ⟨[], by simp [pyOr, truthy], rfl⟩
      | cons p rest => exact ⟨p :: rest, by simp [pyOr, truthy], rfl⟩
    simp only [extract_label, pyGet_obj, except_bind_ok, hwf, Option.getD_some,
      h1, h2, label_chain, hnv]
    cases hv : (jlookup "verbalElement" wf).getD .null with
    | str s =>
      by_cases hs : pyStrip s = ""
      · simp [first_nonblank, hs, hff]
      · simp [first_nonblank, hs]
    | null => simp [first_nonblank, hff]
    | bool b => simp [first_nonblank, hff]
    | int n => simp [first_nonblank, hff]
    | arr xs => simp [first_nonblank, hff]
    | obj fs => simp [first_nonblank, hff]

/-- C5: on any record whose `wordMarkSpecification` is absent, falsy or a
mapping, the extracted label is the first non-blank string (stripped) among
the nested word-mark verbal element followed by `markText`,
`verbalElement`, `reference`, `title`, `name` in exactly that order, and it
is None — not an error — when every candidate is blank or absent. -/
theorem C5_label_fallback (fields : List (String × JVal))
    (hw : truthy ((jlookup "wordMarkSpecification" fields).getD .null) = false
          ∨ ∃ wf, jlookup "wordMarkSpecification" fields = some (.obj wf)) :
    extract_label (.obj fields) = .ok (first_nonblank (label_chain fields)) :=
  extract_label_eq fields hw

theorem C5_label_fallback_witness :
    extract_label (.obj [("title", .str "Acme"), ("name", .str "Other")]) =
      .ok (first_nonblank (label_chain [("title", .str "Acme"), ("name", .str "Other")]))
    ∧ extract_label (.obj [("title", .str "Acme"), ("name", .str "Other")]) =
      .ok (some "Acme") :=
  ⟨C5_label_fallback [("title", .str "Acme"), ("name", .str "Other")] (Or.inl rfl),
   (C5_label_fallback [("title", .str "Acme"), ("name", .str "Other")] (Or.inl rfl)).trans rfl⟩

theorem clean_one_total (filter : Option (List Int)) (t : JVal)
    (h : tame_record t) : ∃ r, clean_one filter t = .ok r := by
  obtain ⟨fields, rfl, hwms, hcls⟩ := h
  obtain ⟨cl, hcl, b, hb⟩ : ∃ cl, pyOr ((jlookup "niceClasses" fields).getD .null) (.arr [])
      = cl ∧ ∃ b, keep_record filter cl = .ok b := by
    rcases hcls with hfal | ⟨xs, hx, hhash⟩
    · refine ⟨.arr [], by simp [pyOr, hfal], ?_⟩
      match filter with
      | none => exact ⟨true, rfl⟩
      | some [] => exact ⟨true, rfl⟩
      | some (n :: r) => exact ⟨false, by simp [keep_record, pyIterate, pySet]⟩
    · have hall : xs.all hashable = true := List.all_eq_true.mpr hhash
      refine ⟨.arr xs, ?_, ?_⟩
      · cases xs with
        | nil => simp [pyOr, hx, truthy]
        | cons y ys => simp [pyOr, hx, truthy]
      · match filter with
        | none => exact ⟨true, rfl⟩
        | some [] => exact ⟨true, rfl⟩
        | some (n :: r) =>
          refine ⟨xs.any fun c => (n :: r).any fun m => pyEq c (.int m), ?_⟩
          simp only [keep_record, pyIterate, pySet, hall, except_bind_ok]
          simp
  obtain ⟨lbl, hlbl⟩ : ∃ lbl, extract_label (.obj fields) = .ok lbl :=
    ⟨_, extract_label_eq fields hwms⟩
  cases b with
  | false => exact ⟨none, by simp [clean_one, pyGet_obj, hcl, hb]⟩
  | true =>
    exact ⟨some ⟨(jlookup "applicationNumber" fields).getD .null, lbl,
      (jlookup "status" fields).getD .null, cl,
      (jlookup "markFeature" fields).getD .null,
      (jlookup "applicationDate" fields).getD .null,
      (jlookup "registrationDate" fields).getD .null⟩,
      by simp [clean_one, pyGet_obj, hcl, hb, hlbl]⟩

/-- C6, counterexample: normalization can raise.  A record whose
`wordMarkSpecification` is the (truthy, non-mapping) string "x" makes
`_extract_label` evaluate `"x".get(...)`, an AttributeError, so normalizing
a batch containing it aborts the whole search instead of degrading that
field to an absent value. -/
theorem C6_counterexample :
    clean none [.obj [("wordMarkSpecification", .str "x")]] =
      .error .attributeError
    ∧ run_clean none
        (.obj [("trademarks", .arr [.obj [("wordMarkSpecification", .str "x")]])]) =
      .error (.exc .attributeError) :=
  ⟨rfl, rfl⟩

/-- C6, amended: normalization of a batch never raises as long as every
record is a mapping whose `wordMarkSpecification` is absent, falsy or a
mapping and whose `niceClasses` is absent, falsy or a list of hashable
values; missing fields degrade to absent values.  (Outside that shape it
can raise: a truthy non-mapping `wordMarkSpecification` is an
AttributeError, and with an active filter a truthy non-iterable
`niceClasses` is a TypeError.) -/
theorem C6_normalize_no_raise (filter : Option (List Int)) (tms : List JVal)
    (h : ∀ t ∈ tms, tame_record t) : ∃ rs, clean filter tms = .ok rs := by
  induction tms with
  | nil => exact ⟨[], rfl⟩
  | cons t rest ih =>
    obtain ⟨r, hr⟩ := clean_one_total filter t (h t (by simp))
    obtain ⟨rs, hrs⟩ := ih fun t' ht' => h t' (by simp [ht'])
    cases r with
    | none => exact ⟨rs, by simp [clean, hr, hrs]⟩
    | some x => exact ⟨x :: rs, by simp [clean, hr, hrs]⟩

theorem C6_normalize_no_raise_witness :
    (∀ t ∈ [rec_cat], tame_record t)
    ∧ ∃ rs, clean (some [9]) [rec_cat] = .ok rs := by
  have htame : ∀ t ∈ [rec_cat], tame_record t := by
    intro t ht
    simp only [List.mem_singleton] at ht
    subst ht
    exact ⟨[("niceClasses", .arr [.int 25, .int 9])], rfl, Or.inl rfl,
      Or.inr ⟨[.int 25, .int 9], rfl, by decide⟩⟩
  exact ⟨htame, C6_normalize_no_raise (some [9]) [rec_cat] htame⟩

/-- C1: the token cache serves the cached credential with no upstream
authentication call exactly when it holds a (truthy) token and the current
time is strictly below its expiry minus the 30-second margin, and performs
exactly one token exchange otherwise.  A credential with expiry now + 31 is
reused, one with expiry now + 29 is refreshed, and a refresh followed by a
second call inside the margin window makes exactly one upstream
authentication call in total. -/
theorem C1_cache_reuse (env : Env) (now now2 : Int) (c : TokenCache)
    (hid : env.clientId ≠ "") (hsec : env.clientSecret ≠ "") :
    (truthy c.token = true ∧ now < c.exp - 30 →
       get_access_token env now now2 c = (.ok c.token, c, 0))
    ∧ (¬ (truthy c.token = true ∧ now < c.exp - 30) →
       (get_access_token env now now2 c).2.2 = 1)
    ∧ (truthy c.token = true → c.exp = now + 31 →
       get_access_token env now now2 c = (.ok c.token, c, 0))
    ∧ (c.exp = now + 29 → (get_access_token env now now2 c).2.2 = 1)
    ∧ (∀ tokv eJ ei t2 t2b,
        env.authResponse.status = 200 →
        pyGet env.authResponse.json "access_token" = .ok tokv →
        truthy tokv = true →
        pyGetD env.authResponse.json "expires_in" (.int 3600) = .ok eJ →
        pyInt eJ = .ok ei →
        ¬ (truthy c.token = true ∧ now < c.exp - 30) →
        t2 < now2 + ei - 30 →
        (get_access_token env now now2 c).2.2
          + (get_access_token env t2 t2b (get_access_token env now now2 c).2.1).2.2
          = 1) := by
  have hre : require_env env = .ok () := by
    simp [require_env, hid, hsec]
  have hhit : ∀ (h : truthy c.token = true ∧ now < c.exp - 30),
      get_access_token env now now2 c = (.ok c.token, c, 0) := by
    intro h
    simp only [get_access_token, hre]
    rw [if_pos h]
  have hmiss : ∀ (h : ¬ (truthy c.token = true ∧ now < c.exp - 30)),
      (get_access_token env now now2 c).2.2 = 1 := by
    intro h
    simp only [get_access_token, hre]
    rw [if_neg h]
    repeat' split
    all_goals rfl
  refine ⟨hhit, hmiss, ?_, ?_, ?_⟩
  · intro ht hexp
    exact hhit ⟨ht, by omega⟩
  · intro hexp
    apply hmiss
    rintro ⟨ht, hlt⟩
    omega
  · intro tokv eJ ei t2 t2b h200 htok htr heJ hei hm ht2
    have h1 : get_access_token env now now2 c = (.ok tokv, ⟨tokv, now2 + ei⟩, 1) := by
      simp only [get_access_token, hre]
      rw [if_neg hm]
      simp [h200, htok, htr, heJ, hei]
    have h2 : get_access_token env t2 t2b ⟨tokv, now2 + ei⟩ =
        (.ok tokv, ⟨tokv, now2 + ei⟩, 0) := by
      simp only [get_access_token, hre]
      exact if_pos ⟨htr, by omega⟩
    simp [h1, h2]

theorem C1_cache_reuse_witness :
    get_access_token env_happy 100 101 ⟨.str "T", 131⟩ =
      (.ok (.str "T"), ⟨.str "T", 131⟩, 0)
    ∧ (get_access_token env_happy 100 101 ⟨.str "T", 129⟩).2.2 = 1
    ∧ (get_access_token env_happy 100 101 initial_cache).2.2
      + (get_access_token env_happy 105 106
          (get_access_token env_happy 100 101 initial_cache).2.1).2.2 = 1 := by
  refine ⟨?_, ?_, ?_⟩
  · exact (C1_cache_reuse env_happy 100 101 ⟨.str "T", 131⟩ (by decide) (by decide)).2.2.1
      (by decide) (by decide)
  · exact (C1_cache_reuse env_happy 100 101 ⟨.str "T", 129⟩ (by decide) (by decide)).2.2.2.1
      (by decide)
  · exact (C1_cache_reuse env_happy 100 101 initial_cache (by decide) (by decide)).2.2.2.2
      (.str "T") (.int 3600) 3600 105 106 rfl rfl (by decide) rfl rfl
      (by simp [initial_cache, truthy]) (by decide)

/-- C2: when the Primary normalized result is empty and stripping diacritics
changes the query text, the orchestrator performs exactly one Retry fetch
with the stripped text and the same page and size and returns the Retry
normalization even when it is also empty; when the Primary result is
non-empty, or stripping leaves the text unchanged, no retry fetch occurs. -/
theorem C2_diacritic_fallback (env : Env) (now now2 : Int) (c : TokenCache)
    (p : EuipoSearchRequest) (token : JVal) (c2 : TokenCache) (n : Nat)
    (cleaned1 : List NormRecord)
    (htok : get_access_token env now now2 c = (.ok token, c2, n))
    (h1s : (env.searchResponse ⟨token, p.text, p.page, p.size⟩).status = 200)
    (h1c : run_clean p.niceClasses
        (env.searchResponse ⟨token, p.text, p.page, p.size⟩).json = .ok cleaned1) :
    (cleaned1 = [] → strip_diacritics p.text ≠ p.text →
      ∀ cleaned2,
        (env.searchResponse ⟨token, strip_diacritics p.text, p.page, p.size⟩).status = 200 →
        run_clean p.niceClasses
            (env.searchResponse ⟨token, strip_diacritics p.text, p.page, p.size⟩).json
          = .ok cleaned2 →
        euipo_search env now now2 c p =
          (.ok ⟨p.text, p.page, p.size, cleaned2⟩, c2, n,
           [⟨token, p.text, p.page, p.size⟩,
            ⟨token, strip_diacritics p.text, p.page, p.size⟩]))
    ∧ (cleaned1 ≠ [] →
        euipo_search env now now2 c p =
          (.ok ⟨p.text, p.page, p.size, cleaned1⟩, c2, n,
           [⟨token, p.text, p.page, p.size⟩]))
    ∧ (cleaned1 = [] → strip_diacritics p.text = p.text →
        euipo_search env now now2 c p =
          (.ok ⟨p.text, p.page, p.size, cleaned1⟩, c2, n,
           [⟨token, p.text, p.page, p.size⟩])) := by
  have hfetch1 := euipo_get_trademarks_ok env token p.text p.page p.size h1s
  refine ⟨?_, ?_, ?_⟩
  · intro he hne cleaned2 h2s h2c
    have hfetch2 :=
      euipo_get_trademarks_ok env token (strip_diacritics p.text) p.page p.size h2s
    simp [euipo_search, htok, hfetch1, h1c, he, hne, hfetch2, h2c]
  · intro hne
    simp [euipo_search, htok, hfetch1, h1c, hne]
  · intro he heq
    simp [euipo_search, htok, hfetch1, h1c, he, heq]

theorem C2_diacritic_fallback_witness :
    euipo_search env_happy 100 101 ⟨.str "T", 200⟩ ⟨"Nuvilù", none, 0, 10⟩ =
      (.ok ⟨"Nuvilù", 0, 10, []⟩, ⟨.str "T", 200⟩, 0,
       [⟨.str "T", "Nuvilù", 0, 10⟩, ⟨.str "T", "Nuvilu", 0, 10⟩]) :=
  (C2_diacritic_fallback env_happy 100 101 ⟨.str "T", 200⟩ ⟨"Nuvilù", none, 0, 10⟩
      (.str "T") ⟨.str "T", 200⟩ 0 [] rfl rfl rfl).1 rfl (by decide) [] rfl rfl

/-- C9: the orchestrator never retries after an error.  A token-acquisition
failure propagates unchanged with no search fetch at all; a failed Primary
fetch propagates its error unchanged with no further fetch; a failed Retry
fetch propagates its error unchanged and no third fetch happens.  Only the
empty-normalized-result condition triggers the single retry. -/
theorem C9_no_retry_on_error (env : Env) (now now2 : Int) (c : TokenCache)
    (p : EuipoSearchRequest) :
    (∀ e c2 n, get_access_token env now now2 c = (.error e, c2, n) →
      euipo_search env now now2 c p = (.error e, c2, n, []))
    ∧ (∀ token c2 n, get_access_token env now now2 c = (.ok token, c2, n) →
        (env.searchResponse ⟨token, p.text, p.page, p.size⟩).status ≠ 200 →
        euipo_search env now now2 c p =
          (.error (.http ⟨(env.searchResponse ⟨token, p.text, p.page, p.size⟩).status,
             "EUIPO search error: "
               ++ (env.searchResponse ⟨token, p.text, p.page, p.size⟩).text⟩),
           c2, n, [⟨token, p.text, p.page, p.size⟩]))
    ∧ (∀ token c2 n, get_access_token env now now2 c = (.ok token, c2, n) →
        (env.searchResponse ⟨token, p.text, p.page, p.size⟩).status = 200 →
        run_clean p.niceClasses
            (env.searchResponse ⟨token, p.text, p.page, p.size⟩).json = .ok [] →
        strip_diacritics p.text ≠ p.text →
        (env.searchResponse ⟨token, strip_diacritics p.text, p.page, p.size⟩).status ≠ 200 →
        euipo_search env now now2 c p =
          (.error (.http
             ⟨(env.searchResponse ⟨token, strip_diacritics p.text, p.page, p.size⟩).status,
              "EUIPO search error: "
                ++ (env.searchResponse ⟨token, strip_diacritics p.text, p.page, p.size⟩).text⟩),
           c2, n, [⟨token, p.text, p.page, p.size⟩,
                   ⟨token, strip_diacritics p.text, p.page, p.size⟩])) := by
  refine ⟨?_, ?_, ?_⟩
  · intro e c2 n hg
    simp [euipo_search, hg]
  · intro token c2 n hg h1s
    have hfetch1 := euipo_get_trademarks_err env token p.text p.page p.size h1s
    simp [euipo_search, hg, hfetch1]
  · intro token c2 n hg h1s h1c hne h2s
    have hfetch1 := euipo_get_trademarks_ok env token p.text p.page p.size h1s
    have hfetch2 :=
      euipo_get_trademarks_err env token (strip_diacritics p.text) p.page p.size h2s
    simp [euipo_search, hg, hfetch1, h1c, hne, hfetch2]

theorem C9_no_retry_on_error_witness :
    euipo_search env_upstream_err 0 0 initial_cache ⟨"Acme", none, 0, 10⟩ =
      (.error (.http ⟨502, "EUIPO token error: auth denied"⟩), initial_cache, 1, []) :=
  (C9_no_retry_on_error env_upstream_err 0 0 initial_cache ⟨"Acme", none, 0, 10⟩).1
    (.http ⟨502, "EUIPO token error: auth denied"⟩) initial_cache 1 rfl

theorem euipo_get_trademarks_calls (env : Env) (token : JVal) (text : String)
    (page size : Int) :
    (euipo_get_trademarks env token text page size).2 = [⟨token, text, page, size⟩] := by
  simp only [euipo_get_trademarks]
  split <;> rfl

theorem euipo_search_trace (env : Env) (now now2 : Int) (c : TokenCache)
    (p : EuipoSearchRequest) (token : JVal) (c2 : TokenCache) (n : Nat)
    (hg : get_access_token env now now2 c = (.ok token, c2, n)) :
    (euipo_search env now now2 c p).2.1 = c2
    ∧ (euipo_search env now now2 c p).2.2.1 = n
    ∧ ((euipo_search env now now2 c p).2.2.2 = [⟨token, p.text, p.page, p.size⟩]
       ∨ (euipo_search env now now2 c p).2.2.2 =
          [⟨token, p.text, p.page, p.size⟩,
           ⟨token, strip_diacritics p.text, p.page, p.size⟩]) := by
  rcases hf : euipo_get_trademarks env token p.text p.page p.size with ⟨fres, calls1⟩
  have hcalls1 : calls1 = [⟨token, p.text, p.page, p.size⟩] := by
    have h := euipo_get_trademarks_calls env token p.text p.page p.size
    rw [hf] at h
    exact h
  subst hcalls1
  cases fres with
  | error e => simp [euipo_search, hg, hf]
  | ok data =>
    cases hrc : run_clean p.niceClasses data with
    | error e => simp [euipo_search, hg, hf, hrc]
    | ok cleaned =>
      by_cases he : cleaned.isEmpty
      · by_cases hne : strip_diacritics p.text = p.text
        · simp [euipo_search, hg, hf, hrc, he, hne]
        · rcases hf2 : euipo_get_trademarks env token (strip_diacritics p.text) p.page p.size
            with ⟨fres2, calls2⟩
          have hcalls2 : calls2 = [⟨token, strip_diacritics p.text, p.page, p.size⟩] := by
            have h := euipo_get_trademarks_calls env token (strip_diacritics p.text) p.page p.size
            rw [hf2] at h
            exact h
          subst hcalls2
          cases fres2 with
          | error e => simp [euipo_search, hg, hf, hrc, he, hne, hf2]
          | ok data2 =>
            cases hrc2 : run_clean p.niceClasses data2 with
            | error e => simp [euipo_search, hg, hf, hrc, he, hne, hf2, hrc2]
            | ok cleaned2 => simp [euipo_search, hg, hf, hrc, he, hne, hf2, hrc2]
      · simp [euipo_search, hg, hf, hrc, he]

/-- C10: every search invocation acquires a token exactly once, before the
Primary fetch: the orchestrator's cache and authentication-call count are
exactly those of the single acquisition, an acquisition failure means no
search fetch at all, and on success the first fetch is the Primary one with
the query text while every fetch made — the Retry included — carries the
very token obtained by that one acquisition, with no re-acquisition in
between. -/
theorem C10_single_token_acquisition (env : Env) (now now2 : Int) (c : TokenCache)
    (p : EuipoSearchRequest) :
    (euipo_search env now now2 c p).2.1 = (get_access_token env now now2 c).2.1
    ∧ (euipo_search env now now2 c p).2.2.1 = (get_access_token env now now2 c).2.2
    ∧ (∀ e, (get_access_token env now now2 c).1 = .error e →
        (euipo_search env now now2 c p).2.2.2 = [])
    ∧ (∀ token, (get_access_token env now now2 c).1 = .ok token →
        (euipo_search env now now2 c p).2.2.2.head? =
          some ⟨token, p.text, p.page, p.size⟩
        ∧ ∀ call ∈ (euipo_search env now now2 c p).2.2.2, call.token = token) := by
  rcases hg : get_access_token env now now2 c with ⟨res, c2, n⟩
  cases res with
  | error e0 =>
    have hs : euipo_search env now now2 c p = (.error e0, c2, n, []) := by
      simp [euipo_search, hg]
    refine ⟨by simp [hs], by simp [hs], ?_, ?_⟩
    · intro e he
      simp [hs]
    · intro token htok
      simp at htok
  | ok token =>
    obtain ⟨h1, h2, h3⟩ := euipo_search_trace env now now2 c p token c2 n hg
    refine ⟨by simp [h1], by simp [h2], ?_, ?_⟩
    · intro e he
      simp at he
    · intro token' htok'
      have : token' = token := by
        simp at htok'
        exact htok'.symm
      subst this
      rcases h3 with h | h <;> simp [h]

theorem C10_single_token_acquisition_witness :
    (euipo_search env_happy 100 101 initial_cache ⟨"Nuvilù", none, 0, 10⟩).2.2.2.head? =
      some ⟨.str "T", "Nuvilù", 0, 10⟩
    ∧ ∀ call ∈ (euipo_search env_happy 100 101 initial_cache
        ⟨"Nuvilù", none, 0, 10⟩).2.2.2, call.token = .str "T" :=
  (C10_single_token_acquisition env_happy 100 101 initial_cache
    ⟨"Nuvilù", none, 0, 10⟩).2.2.2 (.str "T") rfl
